import Mathlib

/-!
Verification of the segmented download engine in
`src/backend/src/routes/download.py` (class `DownloadTask` and its routes).

The Python code is shallowly embedded as pure Lean functions:
  * the mutable fields of a `DownloadTask` object become the record `DL.TaskSt`
    (only the fields the verified methods read or write are modelled);
  * each method becomes a function from the old state (plus its explicit
    inputs, with the network and the filesystem passed in as values or
    oracles) to the new state;
  * Python `int` values that are always non-negative in the modelled paths
    (sizes, offsets, counters) become `Nat`; `None`-able values become
    `Option`; byte strings become `List Nat`.
Wall-clock speed sampling (lines 140-145 of the source) and OS-level I/O
exceptions are outside the model; each definition's doc comment points to the
source lines it embeds and states any such abstraction.
-/

namespace DL

/-- The mutable state of one `DownloadTask` object (`__init__`, lines 27-47 of
`download.py`), restricted to the fields read or written by the methods
modelled below.  `status` ranges over the strings listed in the source
comment on line 35: `"pending"`, `"downloading"`, `"paused"`, `"completed"`,
`"error"`.  `totalSize = 0` means the size is unknown (line 37). -/
structure TaskSt where
  status : String
  progress : Nat
  totalSize : Nat
  downloadedSize : Nat
  paused : Bool
  errorMessage : Option String
deriving DecidableEq

/-- One loop iteration of `_create_chunks` (lines 77-81): chunk `i` spans
`start = i * chunk_size` to `end = min(start + chunk_size - 1, total_size - 1)`
and is kept only when `start <= end`. -/
def chunkOf (totalSize chunkSize : Nat) (i : Nat) : Option (Nat × Option Nat) :=
  if i * chunkSize ≤ min (i * chunkSize + chunkSize - 1) (totalSize - 1) then
    some (i * chunkSize, some (min (i * chunkSize + chunkSize - 1) (totalSize - 1)))
  else
    none

/-- `DownloadTask._create_chunks` (lines 69-83).  When the server does not
support ranges or the size is unknown it returns the single chunk
`(0, total_size - 1 if total_size > 0 else None)`; otherwise it partitions
with `chunk_size = max(total_size // max_connections, 1024 * 1024)` over
`range(max_connections)`.  The `self.supports_range`, `self.total_size` and
`self.max_connections` fields it reads are passed as arguments. -/
def createChunks (supportsRange : Bool) (totalSize maxConnections : Nat) :
    List (Nat × Option Nat) :=
  if supportsRange = false ∨ totalSize ≤ 0 then
    [(0, if 0 < totalSize then some (totalSize - 1) else none)]
  else
    (List.range maxConnections).filterMap
      (chunkOf totalSize (max (totalSize / maxConnections) (1024 * 1024)))

/-- A byte offset `b` lies inside chunk `c`: between its start and its end
when the end is bounded, at or after its start when the end is open. -/
def inChunk (c : Nat × Option Nat) (b : Nat) : Bool :=
  match c.2 with
  | some e => decide (c.1 ≤ b ∧ b ≤ e)
  | none => decide (c.1 ≤ b)

/-- A byte offset is covered by some chunk of the list. -/
def coversByte (cs : List (Nat × Option Nat)) (b : Nat) : Bool :=
  cs.any (fun c => inChunk c b)

/-- In the multipart branch of `_create_chunks`, chunks produced for earlier
loop indices end strictly before later chunks start. -/
theorem chunkList_pairwise (totalSize chunkSize maxConnections : Nat)
    (hcs : 1 ≤ chunkSize) :
    List.Pairwise (fun c d : Nat × Option Nat => ∃ e, c.2 = some e ∧ c.1 ≤ e ∧ e < d.1)
      ((List.range maxConnections).filterMap (chunkOf totalSize chunkSize)) := by
  refine List.Pairwise.filterMap _ ?_ (List.pairwise_lt_range maxConnections)
  intro i j hij x hx y hy
  unfold chunkOf at hx hy
  split at hx
  case isFalse => simp at hx
  case isTrue hi =>
  split at hy
  case isFalse => simp at hy
  case isTrue hj =>
  simp only [Option.mem_def, Option.some.injEq] at hx hy
  subst hx
  subst hy
  refine ⟨min (i * chunkSize + chunkSize - 1) (totalSize - 1), rfl, hi, ?_⟩
  have h1 : min (i * chunkSize + chunkSize - 1) (totalSize - 1)
      ≤ i * chunkSize + chunkSize - 1 := Nat.min_le_left _ _
  have h2 : i * chunkSize + chunkSize = (i + 1) * chunkSize :=
    (Nat.succ_mul i chunkSize).symm
  have h3 : (i + 1) * chunkSize ≤ j * chunkSize :=
    Nat.mul_le_mul_right chunkSize hij
  have h4 : i * chunkSize + chunkSize ≤ j * chunkSize := h2 ▸ h3
  have h5 : 1 ≤ i * chunkSize + chunkSize := le_trans hcs (Nat.le_add_left _ _)
  omega

/-- Chunks of `_create_chunks`, over all branches: each earlier chunk has a
bounded end strictly below the next chunk's start (a singleton list satisfies
this vacuously). -/
theorem createChunks_strong_pairwise (supportsRange : Bool) (totalSize maxConnections : Nat) :
    List.Pairwise (fun c d : Nat × Option Nat => ∃ e, c.2 = some e ∧ c.1 ≤ e ∧ e < d.1)
      (createChunks supportsRange totalSize maxConnections) := by
  unfold createChunks
  split
  · exact List.pairwise_singleton _ _
  · exact chunkList_pairwise _ _ _ (le_trans (by norm_num) (Nat.le_max_right _ _))

/-- C8: For every known total size `S` and connection count `N ≥ 1` (the
hypothesis mirrors that `total_size // max_connections` would raise
`ZeroDivisionError` in Python for `N = 0`), the chunks produced by
`_create_chunks` are pairwise non-overlapping: no byte offset lies inside two
distinct planned ranges.  Stated for every `supportsRange` and `S`, covering
the single-chunk fallback branch as well. -/
theorem createChunks_pairwise_disjoint (supportsRange : Bool) (totalSize maxConnections : Nat)
    (hN : 1 ≤ maxConnections) :
    List.Pairwise (fun c d => ∀ b : Nat, inChunk c b = true → inChunk d b = false)
      (createChunks supportsRange totalSize maxConnections) := by
  refine (createChunks_strong_pairwise supportsRange totalSize maxConnections).imp ?_
  rintro c d ⟨e, hc2, _, hlt⟩ b hb
  unfold inChunk at hb ⊢
  rw [hc2] at hb
  have hbe : c.1 ≤ b ∧ b ≤ e := of_decide_eq_true hb
  match hd : d.2 with
  | some e2 =>
    apply decide_eq_false
    intro ⟨hdb, _⟩
    omega
  | none =>
    apply decide_eq_false
    intro hdb
    omega

/-- Witness for `createChunks_pairwise_disjoint` at the spec's own scenario
(§8): size 10,000,000, four connections. -/
theorem createChunks_pairwise_disjoint_witness :
    List.Pairwise (fun c d => ∀ b : Nat, inChunk c b = true → inChunk d b = false)
      (createChunks true 10000000 4) :=
  createChunks_pairwise_disjoint true 10000000 4 (by decide)

/-- C1 (code bug): with `total_size = 4194305` (4 MiB + 1), range support and
`max_connections = 4`, `_create_chunks` yields exactly the four chunks below,
whose union is `[0, 4194304)`: the final byte at offset `4194304` is covered
by no chunk.  The final segment does not absorb the remainder of the integer
division — the loop caps every chunk, the last included, at
`start + chunk_size - 1`, so whenever `total_size // max_connections ≥ 1 MiB`
and `max_connections` does not divide `total_size`, the trailing
`total_size mod max_connections` bytes are never assigned to any chunk. -/
theorem createChunks_misses_tail_byte :
    createChunks true 4194305 4 =
      [(0, some 1048575), (1048576, some 2097151),
       (2097152, some 3145727), (3145728, some 4194303)] ∧
    coversByte (createChunks true 4194305 4) 4194304 = false ∧
    coversByte (createChunks true 4194305 4) 4194303 = true := by
  decide

/-- C7 counterexample: with range support absent but the total size known
(`supports_range = False`, `total_size = 100`), `_create_chunks` returns the
single chunk `(0, 99)` — a bounded end offset, not the open-ended `None` the
claim asserts for every no-range input. -/
theorem createChunks_bounded_end_cex :
    createChunks false 100 4 ≠ [(0, (none : Option Nat))] ∧
    createChunks false 100 4 = [(0, some 99)] := by
  decide

/-- C7 amended: when range support is absent or the total size is unknown
(`total_size = 0`), `_create_chunks` produces exactly one chunk starting at 0
and spanning the whole resource; its end offset is open (`None`) exactly when
the total size is unknown, and `total_size - 1` otherwise. -/
theorem createChunks_single_segment (supportsRange : Bool) (totalSize maxConnections : Nat)
    (h : supportsRange = false ∨ totalSize = 0) :
    createChunks supportsRange totalSize maxConnections =
      [(0, if 0 < totalSize then some (totalSize - 1) else none)] := by
  unfold createChunks
  rw [if_pos]
  rcases h with h | h
  · exact Or.inl h
  · exact Or.inr (le_of_eq h)

/-- Witness for `createChunks_single_segment`: no range support, size 100. -/
theorem createChunks_single_segment_witness :
    createChunks false 100 4 = [(0, some 99)] := by
  rw [createChunks_single_segment false 100 4 (Or.inl rfl)]
  decide

/-- One loop iteration structure of `_combine_chunks` (lines 205-210): for each
temp file in list order, append its contents to the output when it exists and
remove it; silently skip it when it does not exist.  The filesystem is
modelled positionally: entry `i` of the list is the contents of temp file
`"{full_path}.part{i}"`, or `none` when that file is missing.  Returns the
bytes written to the final file and the filesystem after removal. -/
def combineChunksGo : List (Option (List Nat)) → List Nat × List (Option (List Nat))
  | [] => ([], [])
  | some content :: rest =>
    let r := combineChunksGo rest
    (content ++ r.1, none :: r.2)
  | none :: rest =>
    let r := combineChunksGo rest
    (r.1, none :: r.2)

/-- `DownloadTask._combine_chunks` (lines 202-213).  The final file is opened
`'wb'` (truncated) and each existing temp file is concatenated in list order
and then removed; missing temp files are skipped without any error, and no
size check of any kind is performed.  The `except` branch (lines 211-213) only
fires on an OS-level I/O exception, which the pure model excludes, so the task
state passes through unchanged. -/
def combineChunks (t : TaskSt) (sinks : List (Option (List Nat))) :
    TaskSt × List Nat × List (Option (List Nat)) :=
  (t, combineChunksGo sinks)

/-- `_combine_chunks` output: concatenation of the present sinks in list
order. -/
theorem combineChunksGo_out (sinks : List (Option (List Nat))) :
    (combineChunksGo sinks).1 = (sinks.filterMap id).flatten := by
  induction sinks with
  | nil => rfl
  | cons s rest ih =>
    match s with
    | some c => simp [combineChunksGo, ih]
    | none => simp [combineChunksGo, ih]

/-- `_combine_chunks` filesystem effect: every temp file slot ends up absent
(present ones are removed, missing ones stay missing). -/
theorem combineChunksGo_removed (sinks : List (Option (List Nat))) :
    (combineChunksGo sinks).2 = sinks.map (fun _ => none) := by
  induction sinks with
  | nil => rfl
  | cons s rest ih =>
    match s with
    | some c => simp [combineChunksGo, ih]
    | none => simp [combineChunksGo, ih]

/-- A concrete task mid-download: six bytes expected in total. -/
def t0 : TaskSt :=
  { status := "downloading", progress := 0, totalSize := 6, downloadedSize := 0,
    paused := false, errorMessage := none }

/-- C2 counterexample: a two-segment task with declared ranges `(0,2)` and
`(3,5)` whose second sink is missing is assembled without any error — the
status stays `"downloading"` (in particular never becomes `"error"`) and the
output is the three-byte file `[1,2,3]` instead of the declared six bytes.
Likewise a present sink whose content size (2 bytes) does not match its
declared range `(0,2)` (3 bytes) is concatenated as-is with no error: the code
performs no size verification at all, so a short or garbled file is produced
silently rather than aborting as the claim requires. -/
theorem combineChunks_silent_skip_cex :
    ((combineChunks t0 [some [1, 2, 3], none]).1.status = "downloading" ∧
     (combineChunks t0 [some [1, 2, 3], none]).1.status ≠ "error" ∧
     (combineChunks t0 [some [1, 2, 3], none]).2.1 = [1, 2, 3]) ∧
    ((combineChunks t0 [some [1, 2], some [4, 5, 6]]).1.status ≠ "error" ∧
     (combineChunks t0 [some [1, 2], some [4, 5, 6]]).2.1 = [1, 2, 4, 5, 6]) := by
  decide

/-- C2 amended: `_combine_chunks` never fails on a missing sink or a size
mismatch — it leaves the task state (status and error message included)
unchanged, writes exactly the concatenation of whichever sinks exist in list
order, and removes the sinks that existed.  Only an OS-level I/O exception
(outside this model) can set the error status. -/
theorem combineChunks_amended_spec (t : TaskSt) (sinks : List (Option (List Nat))) :
    (combineChunks t sinks).1 = t ∧
    (combineChunks t sinks).2.1 = (sinks.filterMap id).flatten ∧
    (combineChunks t sinks).2.2 = sinks.map (fun _ => none) :=
  ⟨rfl, combineChunksGo_out sinks, combineChunksGo_removed sinks⟩

/-- C9: when every sink of the list handed to `_combine_chunks` is present
(the claim's premise of completed segments), the output file is byte-for-byte
the concatenation of the sink contents in list order, every intermediate sink
is removed afterwards, and — because `_multipart_download` (lines 150-153)
builds the temp-file list in the index order of `_create_chunks`, whose
chunks have strictly increasing start offsets — list order is ascending
start-offset order.  The completion order of the segment downloads does not
occur anywhere in `_combine_chunks`, so the output is independent of it. -/
theorem combineChunks_ordered_concat (t : TaskSt) (sinks : List (Option (List Nat)))
    (supportsRange : Bool) (totalSize maxConnections : Nat)
    (hN : 1 ≤ maxConnections) (hall : ∀ s ∈ sinks, s ≠ none) :
    (combineChunks t sinks).2.1 = (sinks.map (fun s => s.getD [])).flatten ∧
    (∀ s ∈ (combineChunks t sinks).2.2, s = none) ∧
    List.Pairwise (fun c d : Nat × Option Nat => c.1 < d.1)
      (createChunks supportsRange totalSize maxConnections) := by
  have he : sinks.filterMap id = sinks.map (fun s => s.getD []) := by
    induction sinks with
    | nil => rfl
    | cons s rest ih =>
      match s with
      | some c =>
        simp only [List.filterMap_cons, id, List.map_cons, Option.getD_some]
        exact congrArg _ (ih (fun x hx => hall x (List.mem_cons_of_mem _ hx)))
      | none => exact absurd rfl (hall none (List.mem_cons_self _ _))
  refine ⟨?_, ?_, ?_⟩
  · rw [show (combineChunks t sinks).2.1 = (combineChunksGo sinks).1 from rfl,
      combineChunksGo_out, he]
  · intro s hs
    rw [show (combineChunks t sinks).2.2 = (combineChunksGo sinks).2 from rfl,
      combineChunksGo_removed] at hs
    rcases List.mem_map.1 hs with ⟨_, _, hx⟩
    exact hx.symm
  · refine (createChunks_strong_pairwise supportsRange totalSize maxConnections).imp ?_
    rintro c d ⟨e, _, hce, hlt⟩
    omega

/-- Witness for `combineChunks_ordered_concat`: two present sinks, size 100,
two connections. -/
theorem combineChunks_ordered_concat_witness :
    (combineChunks t0 [some [1, 2], some [3]]).2.1 =
      ([some [1, 2], some [3]].map (fun s => s.getD [])).flatten ∧
    (∀ s ∈ (combineChunks t0 [some [1, 2], some [3]]).2.2, s = none) ∧
    List.Pairwise (fun c d : Nat × Option Nat => c.1 < d.1) (createChunks true 100 2) :=
  combineChunks_ordered_concat t0 [some [1, 2], some [3]] true 100 2 (by decide) (by decide)

/-- `DownloadTask._download_chunk` (lines 178-200) at network-outcome
granularity: the one HTTP request the method makes either yields the chunk's
bytes or raises, and the `except` clause (lines 199-200) re-raises any
exception wrapped as `"Failed to download chunk {chunk_id}: {detail}"`.  The
network is an oracle from attempt number to outcome; the method performs
exactly one request, so only attempt `0` is consulted.  (The streaming loop
inside the success path is modelled at increment granularity separately by
`chunkFetchRun`.) -/
def downloadChunk (chunkId : Nat) (attemptOutcome : Nat → Except String (List Nat)) :
    Except String (List Nat) :=
  match attemptOutcome 0 with
  | Except.ok c => Except.ok c
  | Except.error d =>
      Except.error ("Failed to download chunk " ++ toString chunkId ++ ": " ++ d)

/-- The `as_completed` loop of `_multipart_download` (lines 164-172) over the
chunk results in completion order (modelled as submission order): break when
the pause flag is set, continue on a successful future, and on the first
raising future set the status to `"error"` with the wrapped message and
return.  The `self.paused` flag is sampled from the (unchanging) task state,
i.e. no concurrent `pause()` call during the loop is modelled here. -/
def multipartLoop (t : TaskSt) : List (Nat × Except String (List Nat)) → TaskSt
  | [] => t
  | (_, r) :: rest =>
    if t.paused then t
    else
      match r with
      | Except.ok _ => multipartLoop t rest
      | Except.error d =>
          { t with status := "error",
                   errorMessage := some ("Chunk download failed: " ++ d) }

/-- The submission filter of `_multipart_download` (lines 158-161): chunk `i`
is submitted to the executor exactly when its start offset is at least
`resume_pos`; the accumulated index is the `chunk_id` passed to
`_download_chunk`. -/
def submitIdx (resumePos : Nat) : Nat → List (Nat × Option Nat) → List Nat
  | _, [] => []
  | i, c :: rest =>
    if resumePos ≤ c.1 then i :: submitIdx resumePos (i + 1) rest
    else submitIdx resumePos (i + 1) rest

/-- The tail of `_multipart_download` (lines 174-176): after the completion
loop, `_combine_chunks` is invoked exactly when the task is neither paused nor
in error.  Returns the loop's resulting state and that condition. -/
def multipartFinish (t2 : TaskSt) : TaskSt × Bool :=
  (t2, !t2.paused && !(t2.status == "error"))

/-- `DownloadTask._multipart_download` (lines 147-176): submit one
`_download_chunk` per chunk whose start is at least `resume_pos`, run the
completion loop, and afterwards invoke `_combine_chunks` exactly when the task
is neither paused nor in error.  Returns the resulting task state and whether
`_combine_chunks` was invoked. -/
def multipartDownload (t : TaskSt) (chunks : List (Nat × Option Nat)) (resumePos : Nat)
    (oracle : Nat → Nat → Except String (List Nat)) : TaskSt × Bool :=
  multipartFinish
    (multipartLoop t
      ((submitIdx resumePos 0 chunks).map (fun i => (i, downloadChunk i (oracle i)))))

/-- Unfolding of `submitIdx` at a cons cell. -/
theorem submitIdx_cons (rp i : Nat) (c : Nat × Option Nat) (rest : List (Nat × Option Nat)) :
    submitIdx rp i (c :: rest) =
      if rp ≤ c.1 then i :: submitIdx rp (i + 1) rest else submitIdx rp (i + 1) rest :=
  rfl

/-- Unfolding of `multipartLoop` at a failed future. -/
theorem multipartLoop_cons_error (t : TaskSt) (i : Nat) (d : String)
    (l : List (Nat × Except String (List Nat))) :
    multipartLoop t ((i, Except.error d) :: l) =
      if t.paused then t
      else { t with status := "error",
                    errorMessage := some ("Chunk download failed: " ++ d) } :=
  rfl

/-- A network oracle whose first attempt fails with a transport error and
whose every later attempt succeeds: exactly the transient failure the claim
says is retried. -/
def flaky : Nat → Nat → Except String (List Nat) :=
  fun _ a => if a = 0 then Except.error "Connection reset" else Except.ok [1, 2, 3]

/-- A network oracle failing on every attempt. -/
def alwaysFail : Nat → Nat → Except String (List Nat) :=
  fun _ _ => Except.error "Connection reset"

/-- C4 counterexample: a one-chunk task over the `flaky` oracle — whose first
attempt raises a transport-level error and whose second attempt would succeed
— is driven to status `"error"` immediately, even though a single local retry
would have succeeded.  `_download_chunk` issues exactly one request and
`_multipart_download` escalates the first failure with no retry and no
backoff, so the task does not enter Error only "after retries are exhausted"
and transport errors are not treated differently from any other kind. -/
theorem multipart_no_retry_cex :
    (multipartDownload t0 [(0, some 2)] 0 flaky).1.status = "error" ∧
    (multipartDownload t0 [(0, some 2)] 0 flaky).1.errorMessage =
      some "Chunk download failed: Failed to download chunk 0: Connection reset" ∧
    (multipartDownload t0 [(0, some 2)] 0 flaky).2 = false ∧
    flaky 0 1 = Except.ok [1, 2, 3] :=
  ⟨by decide, by decide, by decide, rfl⟩

/-- C4 amended: every chunk-fetch failure, of any kind, escalates immediately.
Conjunct one: the result of `_multipart_download` depends only on attempt `0`
of each chunk's oracle — no retry is ever consulted.  Conjuncts two and three:
for an unpaused task whose first submitted chunk's single attempt fails with
detail `d`, the task's status becomes `"error"` at once, with the captured
detail string `"Chunk download failed: Failed to download chunk 0: " ++ d`. -/
theorem multipart_immediate_escalation (t : TaskSt) (chunks : List (Nat × Option Nat))
    (resumePos : Nat) (oracle oracle2 : Nat → Nat → Except String (List Nat))
    (s : Nat) (eo : Option Nat) (rest : List (Nat × Option Nat)) (d : String)
    (hA : ∀ i, oracle i 0 = oracle2 i 0)
    (hp : t.paused = false)
    (hc : chunks = (s, eo) :: rest)
    (hs : resumePos ≤ s)
    (he : oracle 0 0 = Except.error d) :
    multipartDownload t chunks resumePos oracle = multipartDownload t chunks resumePos oracle2 ∧
    (multipartDownload t chunks resumePos oracle).1.status = "error" ∧
    (multipartDownload t chunks resumePos oracle).1.errorMessage =
      some ("Chunk download failed: " ++ ("Failed to download chunk 0: " ++ d)) := by
  have hdc : downloadChunk 0 (oracle 0) =
      Except.error ("Failed to download chunk " ++ toString 0 ++ ": " ++ d) := by
    unfold downloadChunk
    rw [he]
  have hsub : submitIdx resumePos 0 ((s, eo) :: rest) = 0 :: submitIdx resumePos 1 rest := by
    rw [submitIdx_cons, if_pos hs]
  have hloop : (multipartDownload t chunks resumePos oracle).1 =
      { t with status := "error",
               errorMessage := some ("Chunk download failed: "
                 ++ ("Failed to download chunk " ++ toString 0 ++ ": " ++ d)) } := by
    subst hc
    unfold multipartDownload multipartFinish
    rw [hsub]
    simp only [List.map_cons]
    rw [hdc, multipartLoop_cons_error, hp]
    simp
  refine ⟨?_, ?_, ?_⟩
  · unfold multipartDownload
    have : (submitIdx resumePos 0 chunks).map (fun i => (i, downloadChunk i (oracle i))) =
        (submitIdx resumePos 0 chunks).map (fun i => (i, downloadChunk i (oracle2 i))) := by
      apply List.map_congr_left
      intro i _
      unfold downloadChunk
      rw [hA i]
    rw [this]
  · rw [hloop]
  · rw [hloop]
    show some ("Chunk download failed: " ++ ("Failed to download chunk " ++ toString 0 ++ ": " ++ d)) =
      some ("Chunk download failed: " ++ ("Failed to download chunk 0: " ++ d))
    rw [show "Failed to download chunk " ++ toString 0 ++ ": " = "Failed to download chunk 0: "
      from by decide]

/-- Witness for `multipart_immediate_escalation`: the `flaky` and `alwaysFail`
oracles agree on attempt `0`, so the download result is identical, and the
single-chunk task errors at once with the captured detail. -/
theorem multipart_immediate_escalation_witness :
    multipartDownload t0 [(0, some 2)] 0 flaky = multipartDownload t0 [(0, some 2)] 0 alwaysFail ∧
    (multipartDownload t0 [(0, some 2)] 0 flaky).1.status = "error" ∧
    (multipartDownload t0 [(0, some 2)] 0 flaky).1.errorMessage =
      some ("Chunk download failed: " ++ ("Failed to download chunk 0: " ++ "Connection reset")) :=
  multipart_immediate_escalation t0 [(0, some 2)] 0 flaky alwaysFail 0 (some 2) [] "Connection reset"
    (fun _ => rfl) rfl rfl (Nat.le_refl 0) rfl

/-- The per-increment counter update of `_download_chunk` (lines 194-197) and
`_single_part_download` (lines 133-138): under the lock, add the increment's
length to `downloaded_size` and, when the total size is known, recompute
`progress = int(downloaded_size / total_size * 100)` (the float arithmetic of
the source agrees with Nat floor division at every state reached in the
theorems below). -/
def recvIncrement (t : TaskSt) (n : Nat) : TaskSt :=
  let t1 := { t with downloadedSize := t.downloadedSize + n }
  if 0 < t1.totalSize then
    { t1 with progress := t1.downloadedSize * 100 / t1.totalSize }
  else t1

/-- `recvIncrement` touches only the byte counter and the progress field. -/
theorem recvIncrement_paused (t : TaskSt) (n : Nat) :
    (recvIncrement t n).paused = t.paused := by
  unfold recvIncrement
  dsimp only []
  split <;> rfl

/-- The streaming loop of `_download_chunk` (lines 186-197) at increment
granularity: the temp file is opened `'wb'` (truncating any previous content)
and for each increment of the response body the loop first samples
`self.paused` — a flag a concurrent `pause()` call may have set, modelled by
the schedule `pausedAt` indexed by the check number — returning immediately
(without touching `status`) when it is set, and otherwise counting the
increment via `recvIncrement` when it is non-empty.  Note what is absent,
exactly as in the source: nothing ever subtracts from `downloadedSize`, so a
re-invocation for the same chunk after a pause counts its bytes a second
time. -/
def chunkFetchRun (t : TaskSt) (pausedAt : Nat → Bool) : Nat → List (List Nat) → TaskSt
  | _, [] => t
  | k, c :: rest =>
    if pausedAt k then t
    else if c.isEmpty then chunkFetchRun t pausedAt (k + 1) rest
    else chunkFetchRun (recvIncrement t c.length) pausedAt (k + 1) rest

/-- A task whose probe found a total size of 100 bytes, about to download. -/
def t5 : TaskSt :=
  { status := "downloading", progress := 0, totalSize := 100, downloadedSize := 0,
    paused := false, errorMessage := none }

/-- The pause flag becomes observable from the second check on. -/
def sched1 : Nat → Bool := fun k => decide (1 ≤ k)

/-- C5 (code bug): `total_size = 100`, one chunk spanning `[0, 99]` streamed
in two 50-byte increments.  The first `_download_chunk` run is paused after
counting the first increment (`downloaded_size = 50`); on resume the chunk is
re-fetched from scratch — the temp file is reopened `'wb'` — but
`downloaded_size` is never reset, so the second, uninterrupted run ends with
`downloaded_size = 150 > total_size = 100` and `progress = 150`, violating the
claimed invariant `downloaded_bytes ≤ total_size` across a pause/resume of a
multipart download. -/
theorem downloaded_exceeds_total_on_resume :
    (chunkFetchRun t5 sched1 0 [List.replicate 50 0, List.replicate 50 0]).downloadedSize = 50 ∧
    (chunkFetchRun
        (chunkFetchRun t5 sched1 0 [List.replicate 50 0, List.replicate 50 0])
        (fun _ => false) 0 [List.replicate 50 0, List.replicate 50 0]).downloadedSize = 150 ∧
    (chunkFetchRun
        (chunkFetchRun t5 sched1 0 [List.replicate 50 0, List.replicate 50 0])
        (fun _ => false) 0 [List.replicate 50 0, List.replicate 50 0]).totalSize = 100 ∧
    (chunkFetchRun
        (chunkFetchRun t5 sched1 0 [List.replicate 50 0, List.replicate 50 0])
        (fun _ => false) 0 [List.replicate 50 0, List.replicate 50 0]).progress = 150 := by
  decide

/-- The control point of the single-stream fetcher of `_single_part_download`
within its loop (lines 126-132): about to sample `self.paused` with the given
increments still to process, about to write an already-pulled increment, or
returned. -/
inductive FetcherPC where
  | atCheck (rest : List (List Nat))
  | atWrite (c : List Nat) (rest : List (List Nat))
  | done
deriving DecidableEq

/-- Joint state of one task and its single-stream fetcher thread, with the
increments written to the sink so far. -/
structure SPState where
  task : TaskSt
  pc : FetcherPC
  written : List (List Nat)
deriving DecidableEq

/-- An interleaving event: the route thread runs `DownloadTask.pause`
(lines 215-217), or the fetcher thread executes its next step. -/
inductive Event where
  | pauseCall
  | fetchStep

/-- Small-step semantics of `pause()` interleaved with the loop of
`_single_part_download` (lines 126-145).  `pause()` (lines 215-217) only sets
`self.paused = True` and returns — it signals nothing and waits for nothing.
The fetcher, at its check (line 127), sets `status = "paused"` and returns if
the flag is set, else pulls the next increment; at a write (lines 131-138) it
unconditionally writes the pulled increment and counts it.  Speed sampling
(lines 140-145) is wall-clock-dependent and not modelled. -/
def singlePartStep (s : SPState) : Event → SPState
  | Event.pauseCall => { s with task := { s.task with paused := true } }
  | Event.fetchStep =>
    match s.pc with
    | FetcherPC.atCheck rest =>
      if s.task.paused then
        { s with task := { s.task with status := "paused" }, pc := FetcherPC.done }
      else
        match rest with
        | [] => { s with pc := FetcherPC.done }
        | c :: cs => { s with pc := FetcherPC.atWrite c cs }
    | FetcherPC.atWrite c cs =>
      if c.isEmpty then { s with pc := FetcherPC.atCheck cs }
      else
        { s with task := recvIncrement s.task c.length,
                 pc := FetcherPC.atCheck cs,
                 written := s.written ++ [c] }
    | FetcherPC.done => s

/-- Run a sequence of interleaving events. -/
def runEvents (s : SPState) : List Event → SPState
  | [] => s
  | e :: es => runEvents (singlePartStep s e) es

/-- A downloading task whose fetcher is at its check with one 1-byte increment
left to stream. -/
def sp0 : SPState := { task := t5, pc := FetcherPC.atCheck [[9]], written := [] }

/-- C6 counterexample: the fetcher passes its pause check and pulls an
increment; then `pause()` is called and returns (the flag is set, the caller
has control back, nothing has been written); then the fetcher's next step
writes the increment anyway.  So after `pause()` has returned a fetcher is
still writing — `pause()` is fire-and-forget, not synchronous-consistent — and
at that moment the status is still `"downloading"`, not `"paused"`. -/
theorem pause_fire_and_forget_cex :
    ((runEvents sp0 [Event.fetchStep, Event.pauseCall]).task.paused = true ∧
     (runEvents sp0 [Event.fetchStep, Event.pauseCall]).written = []) ∧
    (runEvents sp0 [Event.fetchStep, Event.pauseCall, Event.fetchStep]).written = [[9]] ∧
    (runEvents sp0 [Event.fetchStep, Event.pauseCall, Event.fetchStep]).task.status =
      "downloading" := by
  decide

/-- C6 amended: pause is cooperative, not synchronous — once the paused flag
is set, the fetcher halts at its next check, so at most the one increment
already pulled past the check is still written (never more), the fetcher's
program counter reaches `done` within two of its steps, and if the fetcher had
not already returned its last act is to set the status to `"paused"`. -/
theorem pause_flag_stops_at_next_check (s : SPState) (h : s.task.paused = true) :
    (runEvents s [Event.fetchStep, Event.fetchStep]).pc = FetcherPC.done ∧
    (runEvents s [Event.fetchStep, Event.fetchStep]).written.length ≤ s.written.length + 1 ∧
    (s.pc ≠ FetcherPC.done →
      (runEvents s [Event.fetchStep, Event.fetchStep]).task.status = "paused") := by
  match hpc : s.pc with
  | FetcherPC.atCheck rest =>
    simp [runEvents, singlePartStep, hpc, h]
  | FetcherPC.atWrite c cs =>
    by_cases hc : c.isEmpty <;>
      simp [runEvents, singlePartStep, hpc, h, hc, recvIncrement_paused]
  | FetcherPC.done =>
    simp [runEvents, singlePartStep, hpc]

/-- A paused-flag state with the fetcher at its check. -/
def spP : SPState :=
  { task := { t5 with paused := true }, pc := FetcherPC.atCheck [[9]], written := [] }

/-- Witness for `pause_flag_stops_at_next_check` at the concrete state
`spP`. -/
theorem pause_flag_stops_at_next_check_witness :
    (runEvents spP [Event.fetchStep, Event.fetchStep]).pc = FetcherPC.done ∧
    (runEvents spP [Event.fetchStep, Event.fetchStep]).written.length ≤ spP.written.length + 1 ∧
    (spP.pc ≠ FetcherPC.done →
      (runEvents spP [Event.fetchStep, Event.fetchStep]).task.status = "paused") :=
  pause_flag_stops_at_next_check spP rfl

/-- `DownloadTask.pause` (lines 215-217): set the flag, nothing else. -/
def pauseTask (t : TaskSt) : TaskSt := { t with paused := true }

/-- `DownloadTask.resume` (lines 219-223): only when the status is exactly
`"paused"` does it clear the flag and call `start_download()` (which spawns a
new worker thread, lines 85-90); otherwise nothing at all happens.  The
returned Bool records whether a worker was spawned. -/
def resume (t : TaskSt) : TaskSt × Bool :=
  if t.status = "paused" then ({ t with paused := false }, true) else (t, false)

/-- The server-side world the cancel route acts on: the module-level
`download_tasks` registry (line 21) as an association list from task id to
task state, and the on-disk files (final outputs and `.partN` sinks) as an
association list from path to contents. -/
structure World where
  tasks : List (String × TaskSt)
  fs : List (String × List Nat)
deriving DecidableEq

/-- `cancel_download_route` (lines 351-366), serving both `/delete/<id>` and
`/cancel/<id>`: look the task up in the registry (404 → `none` when absent),
call `task.pause()` — which only sets the flag — and delete the registry
entry.  The filesystem is not touched.  Returns the new world and, when the
task existed, the task object's state after the route ran (the worker thread
still holds a reference to it after the `del`). -/
def cancelRoute (w : World) (id : String) : World × Option TaskSt :=
  match w.tasks.find? (fun p => p.1 == id) with
  | none => (w, none)
  | some p =>
    ({ tasks := w.tasks.filter (fun q => q.1 != id), fs := w.fs }, some (pauseTask p.2))

/-- A world holding one mid-download task `"t1"` with an intermediate sink
`"video.mp4.part0"` on disk. -/
def w0 : World := { tasks := [("t1", t0)], fs := [("video.mp4.part0", [7, 7])] }

/-- C3 counterexample: cancelling the mid-download task `"t1"` leaves its
intermediate sink `"video.mp4.part0"` on disk untouched, and the task object
ends with status `"downloading"` (merely the paused flag set) — no distinct
`"cancelled"` state exists anywhere in the code (the status strings are
enumerated on line 35: pending, downloading, paused, completed, error).  The
route does not stop fetchers beyond setting the pause flag and removes no
sink, refuting the claim. -/
theorem cancelRoute_cex :
    (cancelRoute w0 "t1").1.fs = [("video.mp4.part0", [7, 7])] ∧
    ((cancelRoute w0 "t1").2.map TaskSt.status) = some "downloading" ∧
    ((cancelRoute w0 "t1").2.map TaskSt.status) ≠ some "cancelled" := by
  decide

/-- C3 amended: cancelling a registered task removes it from the registry and
sets its paused flag — so its fetchers stop at their next cooperative check —
but the filesystem (intermediate sinks and any output) is left exactly as it
was, and the task's status field is unchanged by the route: no `Cancelled`
state is assigned. -/
theorem cancelRoute_amended (w : World) (id : String) (p : String × TaskSt)
    (h : w.tasks.find? (fun q => q.1 == id) = some p) :
    (cancelRoute w id).1.fs = w.fs ∧
    (cancelRoute w id).1.tasks = w.tasks.filter (fun q => q.1 != id) ∧
    (cancelRoute w id).2 = some (pauseTask p.2) ∧
    ((cancelRoute w id).2.map TaskSt.status) = some p.2.status := by
  unfold cancelRoute
  rw [h]
  exact ⟨rfl, rfl, rfl, rfl⟩

/-- Witness for `cancelRoute_amended` at the concrete world `w0`. -/
theorem cancelRoute_amended_witness :
    (cancelRoute w0 "t1").1.fs = w0.fs ∧
    (cancelRoute w0 "t1").1.tasks = w0.tasks.filter (fun q => q.1 != "t1") ∧
    (cancelRoute w0 "t1").2 = some (pauseTask t0) ∧
    ((cancelRoute w0 "t1").2.map TaskSt.status) = some t0.status :=
  cancelRoute_amended w0 "t1" ("t1", t0) (by decide)

/-- C10: `resume()` on a task whose status is not `"paused"` — downloading,
completed, in error, or pending — is a complete no-op: the task state is
unchanged (in particular the paused flag is not cleared) and no new download
worker is spawned, so such a task never acquires a second concurrent worker
through `resume()`. -/
theorem resume_noop_unless_paused (t : TaskSt) (h : t.status ≠ "paused") :
    resume t = (t, false) := by
  unfold resume
  rw [if_neg h]

/-- Witness for `resume_noop_unless_paused` on the downloading task `t0`. -/
theorem resume_noop_unless_paused_witness : resume t0 = (t0, false) :=
  resume_noop_unless_paused t0 (by decide)

end DL
